import Mathlib

set_option autoImplicit false

namespace Pyst

/-!
Shallow embedding of the pyst command runner core
(`pyst-lib/src/executor/context.rs`, `pyst-lib/src/introspection/runner.rs`,
`pyst-lib/src/introspection/cache.rs`, `pyst-lib/src/discovery.rs`).

External collaborators (filesystem, process spawning, SHA-256, the `glob`
crate) are modelled as follows: the `glob` crate (version 0.3, default
`MatchOptions`) is embedded directly because the pattern matcher's behavior
depends on its compile-failure cases; the filesystem and process probes are
modelled as explicit environment records; SHA-256 is an opaque digest
function carried in the environment (the code only ever compares digests
for equality).
-/

/-! ## Model of the `glob` crate (glob 0.3, default `MatchOptions`) -/

/-- A character specifier inside a `[...]` range pattern. -/
inductive CharSpecifier where
  | singleChar (c : Char)
  | charRange (lo hi : Char)
deriving DecidableEq, Repr

/-- A compiled glob pattern token (`glob::Pattern`). -/
inductive GlobToken where
  | char (c : Char)
  | anyChar
  | anySequence
  | anyRecursiveSequence
  | anyWithin (s : List CharSpecifier)
  | anyExcept (s : List CharSpecifier)
deriving DecidableEq, Repr

/-- `parse_char_specifiers` from the glob crate: `a-b` triples become ranges,
everything else is a single character. -/
def parseCharSpecifiers (s : List Char) : List CharSpecifier :=
  match s with
  | [] => []
  | c1 :: d :: c2 :: rest2 =>
    if d = '-' then CharSpecifier.charRange c1 c2 :: parseCharSpecifiers rest2
    else CharSpecifier.singleChar c1 :: parseCharSpecifiers (d :: c2 :: rest2)
  | c1 :: rest => CharSpecifier.singleChar c1 :: parseCharSpecifiers rest

/-- `in_char_specifiers` with the default (case sensitive) options. -/
def inCharSpecifiers (specs : List CharSpecifier) (c : Char) : Bool :=
  specs.any fun s =>
    match s with
    | CharSpecifier.singleChar sc => sc = c
    | CharSpecifier.charRange lo hi => lo ≤ c && c ≤ hi

/-- `glob::Pattern::new`, as a token-list parser over the pattern's
characters. `afterSep` records whether the current position is the start of
the pattern or preceded by a `/` (the condition `i == 2 || chars[i - count - 1]
== '/'` used to validate `**`). `none` models `Err(PatternError)`:
more than two consecutive `*`, a `**` that is not a whole path component, or
a `[` that does not open a well-formed range. The parser consumes at least
one character per step, so it is driven by a fuel counter (structural, hence
kernel-reducible) that `globNew` instantiates with more than the pattern
length; the fuel can therefore never run out. -/
def globParseF (fuel : Nat) (afterSep : Bool) (cs : List Char) : Option (List GlobToken) :=
  match fuel with
  | 0 => none
  | fuel + 1 =>
    match cs with
    | [] => some []
    | '?' :: rest => (globParseF fuel false rest).map (GlobToken.anyChar :: ·)
    | '*' :: rest =>
      let count := (rest.takeWhile (· = '*')).length + 1
      if 2 < count then none
      else if count = 2 then
        if afterSep then
          match rest.dropWhile (· = '*') with
          | [] => some [GlobToken.anyRecursiveSequence]
          | '/' :: rest3 =>
            (globParseF fuel true rest3).map (GlobToken.anyRecursiveSequence :: ·)
          | _ => none
        else none
      else (globParseF fuel false (rest.dropWhile (· = '*'))).map (GlobToken.anySequence :: ·)
    | '[' :: rest =>
      if 3 ≤ rest.length ∧ rest.head? = some '!' then
        match (rest.drop 2).findIdx? (· = ']') with
        | some j =>
          (globParseF fuel false (rest.drop (j + 3))).map
            (GlobToken.anyExcept (parseCharSpecifiers ((rest.drop 1).take (j + 1))) :: ·)
        | none => none
      else if 2 ≤ rest.length ∧ rest.head? ≠ some '!' then
        match (rest.drop 1).findIdx? (· = ']') with
        | some j =>
          (globParseF fuel false (rest.drop (j + 2))).map
            (GlobToken.anyWithin (parseCharSpecifiers (rest.take (j + 1))) :: ·)
        | none => none
      else none
    | c :: rest => (globParseF fuel (c = '/') rest).map (GlobToken.char c :: ·)

/-- `glob::Pattern::new` on a pattern string; `none` is `Err`. -/
def globNew (pattern : String) : Option (List GlobToken) :=
  globParseF (pattern.data.length + 1) true pattern.data

/-- Single-character token match (the non-sequence arm of `matches_from`),
with default options. -/
def globTokenMatches : GlobToken → Char → Bool
  | GlobToken.char c2, c => c = c2
  | GlobToken.anyChar, _ => true
  | GlobToken.anyWithin s, c => inCharSpecifiers s c
  | GlobToken.anyExcept s, c => !inCharSpecifiers s c
  | GlobToken.anySequence, _ => false
  | GlobToken.anyRecursiveSequence, _ => false

/-- The candidate resumption points of the consuming loop of `matches_from`
for `AnyRecursiveSequence`: with default options the rest of the pattern is
retried exactly after each `/` that the `**` consumes, i.e. at every suffix
of the name that follows a `/`. -/
def arsSuffixes : List Char → List (List Char)
  | [] => []
  | c :: f2 => if c = '/' then f2 :: arsSuffixes f2 else arsSuffixes f2

/-- `Pattern::matches_from` with default options, as a boolean backtracking
matcher. `followsSep` is the `follows_separator` flag. Two boolean-preserving
deviations from the Rust control flow: the three-valued `MatchResult` early
abort is elided (it only short-circuits attempts that would fail anyway), and
the `AnyRecursiveSequence` consuming loop is expressed through `arsSuffixes`.
Each recursive call decreases `tokens.length + file.length`, so the fuel that
`globMatches` supplies can never run out. -/
def globMatchF (fuel : Nat) (followsSep : Bool) (tokens : List GlobToken) (file : List Char) :
    Bool :=
  match fuel with
  | 0 => false
  | fuel + 1 =>
    match tokens, file with
    | [], f => f.isEmpty
    | GlobToken.anySequence :: ts, f =>
      globMatchF fuel followsSep ts f ||
        (match f with
         | [] => false
         | c :: f2 => globMatchF fuel (c = '/') (GlobToken.anySequence :: ts) f2)
    | GlobToken.anyRecursiveSequence :: ts, f =>
      globMatchF fuel followsSep ts f ||
        (arsSuffixes f).any fun f2 => globMatchF fuel true ts f2
    | _ :: _, [] => false
    | t :: ts, c :: f2 => globTokenMatches t c && globMatchF fuel (c = '/') ts f2

/-- `Pattern::matches` (match against a whole name; `follows_separator`
starts out `true`). -/
def globMatches (tokens : List GlobToken) (name : String) : Bool :=
  globMatchF (tokens.length + name.data.length + 1) true tokens name.data

/-! ## Pattern matcher and context policy engine (`executor/context.rs`) -/

/-- `matches_pattern`: `*` always matches; a pattern containing wildcard
metacharacters is compiled as a glob and matched structurally when it
compiles; otherwise (no metacharacters, or glob compilation failed) exact
string equality decides. -/
def matchesPattern (name pattern : String) : Bool :=
  if pattern = "*" then true
  else if pattern.data.contains '*' || pattern.data.contains '?' then
    match globNew pattern with
    | some tokens => globMatches tokens name
    | none => name == pattern
  else name == pattern

/-- `ContextConfig`: the ordered rule list of one named context. -/
structure ContextConfig where
  enabled : List String
deriving DecidableEq, Repr

/-- The built-in default context: a single universal-allow rule. -/
def ContextConfig.default : ContextConfig := ⟨["*"]⟩

/-- `Contexts`: the named contexts map (`HashMap` modelled as an association
list with `lookup`). -/
structure Contexts where
  contexts : List (String × ContextConfig)

/-- One evaluated rule in a `ContextEvaluation`. The Rust field `matches` is
named `matched` here because `matches` is reserved in Lean. -/
structure ContextRule where
  pattern : String
  is_negation : Bool
  matched : Bool
deriving DecidableEq, Repr

/-- `ContextEvaluation`: the full evaluation trace. -/
structure ContextEvaluation where
  context_name : String
  script_name : String
  enabled : Bool
  matched_rules : List ContextRule
  final_rule : Option ContextRule
  all_rules : List ContextRule

/-- `pattern.strip_prefix('!')`: split a rule into its negation flag and the
comparison pattern. -/
def stripNegation (pattern : String) : Bool × String :=
  match pattern.data with
  | '!' :: rest => (true, String.mk rest)
  | _ => (false, pattern)

/-- One iteration of the rule loop of `evaluate_script`: strip the negation
marker, and when the comparison pattern matches, overwrite `enabled` with
`!is_negation`, append to `matched_rules` and overwrite `final_rule`. -/
def evalRuleStep (scriptName : String) (st : Bool × List ContextRule × Option ContextRule)
    (pattern : String) : Bool × List ContextRule × Option ContextRule :=
  if matchesPattern scriptName (stripNegation pattern).2 then
    (!(stripNegation pattern).1,
     st.2.1 ++ [⟨pattern, (stripNegation pattern).1, true⟩],
     some ⟨pattern, (stripNegation pattern).1, true⟩)
  else st

/-- The rule loop of `evaluate_script`: fold over the rule list, recording
`(enabled, matched_rules, final_rule)`. -/
def evaluateRules (rules : List String) (scriptName : String) :
    Bool × List ContextRule × Option ContextRule :=
  rules.foldl (evalRuleStep scriptName) (false, [], none)

/-- `Contexts::evaluate_script`: unknown context names fall back to the
built-in default context. -/
def Contexts.evaluateScript (self : Contexts) (contextName scriptName : String) :
    ContextEvaluation :=
  let context := (self.contexts.lookup contextName).getD ContextConfig.default
  let st := evaluateRules context.enabled scriptName
  { context_name := contextName
    script_name := scriptName
    enabled := st.1
    matched_rules := st.2.1
    final_rule := st.2.2
    all_rules := context.enabled.map fun pattern =>
      let neg := stripNegation pattern
      ⟨pattern, neg.1, matchesPattern scriptName neg.2⟩ }

/-- `Contexts::is_script_enabled`: boolean projection of the evaluation. -/
def Contexts.isScriptEnabled (self : Contexts) (contextName scriptName : String) : Bool :=
  (self.evaluateScript contextName scriptName).enabled

/-- Whether a rule (with its negation marker still attached) matches a
script name. -/
def ruleMatches (scriptName pattern : String) : Bool :=
  matchesPattern scriptName (stripNegation pattern).2

/-! ## Trust store and mode selection (`introspection/runner.rs`) -/

/-- Filesystem paths, as component lists (`PathBuf`); `starts_with` on
`Path` is component-wise prefix. -/
abbrev FilePath := List String

/-- The filesystem collaborator used by the trust store:
`Path::canonicalize` resolves symlinks and fails (`none`) when the path does
not exist or is unreadable. -/
structure FsEnv where
  canonicalize : FilePath → Option FilePath

/-- `IntrospectionRunner::is_trusted`: canonicalize, then check membership in
the trusted set or any trusted ancestor (`starts_with`); any canonicalization
error yields `false`. -/
def isTrusted (env : FsEnv) (trustedPaths : List FilePath) (scriptPath : FilePath) : Bool :=
  match env.canonicalize scriptPath with
  | some canonicalPath =>
    trustedPaths.contains canonicalPath ||
      trustedPaths.any fun trustedPath => trustedPath.isPrefixOf canonicalPath
  | none => false

/-- `IntrospectionRunner::trust_path`: canonicalize (propagating failure),
insert into the trusted set (`HashSet::insert`: a no-op when already
present), persist. Persistence is a collaborator side effect; the updated
set is returned. -/
def trustPath (env : FsEnv) (trustedPaths : List FilePath) (path : FilePath) :
    Option (List FilePath) :=
  match env.canonicalize path with
  | some canonicalPath =>
    some (if trustedPaths.contains canonicalPath then trustedPaths
          else canonicalPath :: trustedPaths)
  | none => none

/-- `IntrospectionMode` (`safe` or `import`). -/
inductive IntrospectionMode where
  | Safe
  | Import
deriving DecidableEq, Repr

/-- `IntrospectionRunner::determine_mode`: `Import` only when the configured
introspection policy string is `"import"` and the path is trusted; every
other combination is `Safe`. -/
def determineMode (policy : String) (env : FsEnv) (trustedPaths : List FilePath)
    (scriptPath : FilePath) : IntrospectionMode :=
  if policy = "import" then
    if isTrusted env trustedPaths scriptPath then IntrospectionMode.Import
    else IntrospectionMode.Safe
  else IntrospectionMode.Safe

/-! ## Introspection schema (`introspection/schema.rs`) -/

/-- `SCHEMA_VERSION`. -/
def SCHEMA_VERSION : String := "1.0.0"

/-- `ScriptMetadata`, trimmed: the payload is opaque to the cache and the
orchestrator (stored and returned verbatim, compared only for equality), so
the fields beyond the shape needed by `Default::default()` are elided. The
field defaults mirror `impl Default for ScriptMetadata`. -/
structure ScriptMetadata where
  name : String := ""
  path : String := ""
  description : Option String := none
  docstring : Option String := none
  dependencies : List String := []
  errors : List String := []
deriving DecidableEq, Repr

/-- `IntrospectionResult`. -/
structure IntrospectionResult where
  schema_version : String
  python_version : String
  script_hash : String
  metadata : ScriptMetadata
deriving DecidableEq, Repr

/-! ## Introspection cache (`introspection/cache.rs`) -/

/-- `CacheEntry`: the validity fingerprint plus the stored result. -/
structure CacheEntry where
  file_hash : String
  dependency_hash : String
  python_version : String
  schema_version : String
  timestamp : Nat
  result : IntrospectionResult
deriving DecidableEq, Repr

/-- The in-memory `CacheIndex` (`entries` is the `HashMap`, modelled as an
association list with unique keys; `version` is the format tag). -/
structure CacheIndex where
  entries : List (String × CacheEntry)
  version : String

/-- File bytes. -/
abbrev Bytes := List Nat

/-- The filesystem/process collaborators of the cache. `sha256` is the
SHA-256 digest as an opaque function (the code only compares digests);
`pathBytes` is the byte rendering of a path string (`to_string_lossy`);
`pythonVersion` is the outcome of the synchronous `uv run python --version`
probe (`none` models a probe failure). -/
structure CacheFs where
  fileExists : FilePath → Bool
  readFile : FilePath → Option Bytes
  sha256 : Bytes → String
  pathBytes : FilePath → Bytes
  pythonVersion : Option String

/-- `Cache::make_cache_key`: SHA-256 of the script's path string. -/
def makeCacheKey (env : CacheFs) (scriptPath : FilePath) : String :=
  env.sha256 (env.pathBytes scriptPath)

/-- `Path::parent` on component paths. -/
def parentDir (p : FilePath) : Option FilePath :=
  if p = [] then none else some p.dropLast

/-- `Cache::hash_dependencies`: hash the concatenated contents of the
sibling `requirements.txt` and `pyproject.toml` when they exist and are
readable (an unreadable present file is silently skipped); this function
never fails. -/
def hashDependencies (env : CacheFs) (scriptPath : FilePath) : String :=
  let depBytes :=
    match parentDir scriptPath with
    | some parent =>
      let req := parent ++ ["requirements.txt"]
      let reqBytes := if env.fileExists req then (env.readFile req).getD [] else []
      let pyp := parent ++ ["pyproject.toml"]
      let pypBytes := if env.fileExists pyp then (env.readFile pyp).getD [] else []
      reqBytes ++ pypBytes
    | none => []
  env.sha256 depBytes

/-- `Cache::is_cache_valid` (`Result<bool>`: `none` models an `Err` from
`hash_file` or the runtime-version probe). The five checks run in the
source's order: existence, schema version, content hash, dependency hash,
runtime version. -/
def isCacheValid (env : CacheFs) (scriptPath : FilePath) (entry : CacheEntry) : Option Bool :=
  if env.fileExists scriptPath = false then some false
  else if entry.schema_version ≠ SCHEMA_VERSION then some false
  else
    match env.readFile scriptPath with
    | none => none
    | some bytes =>
      if entry.file_hash ≠ env.sha256 bytes then some false
      else if entry.dependency_hash ≠ hashDependencies env scriptPath then some false
      else
        match env.pythonVersion with
        | none => none
        | some version =>
          if entry.python_version ≠ version then some false else some true

/-- `Cache::get`: look up the path's key and return the stored result only
when the validity check returns `Ok(true)` (`unwrap_or(false)` turns a
validity error into a miss). -/
def cacheGet (env : CacheFs) (index : CacheIndex) (scriptPath : FilePath) :
    Option IntrospectionResult :=
  match index.entries.lookup (makeCacheKey env scriptPath) with
  | some entry =>
    if (isCacheValid env scriptPath entry).getD false then some entry.result else none
  | none => none

/-- `HashMap::insert` on the association-list model: replace the existing
binding of the key or append a new one. -/
def insertEntry (key : String) (entry : CacheEntry) :
    List (String × CacheEntry) → List (String × CacheEntry)
  | [] => [(key, entry)]
  | (k, e) :: rest =>
    if k = key then (key, entry) :: rest else (k, e) :: insertEntry key entry rest

/-- The boot-time filesystem view of `Cache::new`: whether the cache
directory exists, whether `create_dir_all` would succeed, whether the
persisted index file exists, the outcome of reading it (`none` =
unreadable), and the outcome of deserializing it (`none` = malformed). -/
structure CacheBootFs where
  cacheDirExists : Bool
  createDirOk : Bool
  indexFileExists : Bool
  readIndexFile : Option String
  parseIndex : String → Option CacheIndex

/-- `Cache::new`: ensure the cache directory, then load the persisted index
when present (`load_index` reads and deserializes, and both failures
propagate through `?`), otherwise start from an empty index tagged with the
current schema version. -/
def cacheNew (env : CacheBootFs) : Except String CacheIndex :=
  if env.cacheDirExists = false ∧ env.createDirOk = false then
    Except.error "create_dir_all failed"
  else if env.indexFileExists then
    match env.readIndexFile with
    | none => Except.error "load_index: read failed"
    | some content =>
      match env.parseIndex content with
      | none => Except.error "load_index: deserialize failed"
      | some index => Except.ok index
  else Except.ok { entries := [], version := SCHEMA_VERSION }

/-- `key_to_path`: the reverse lookup is not implemented and unconditionally
fails. -/
def keyToPath (_key : String) : Except String FilePath :=
  Except.error "Cannot reverse engineer path from key"

/-- `CacheStats`. -/
structure CacheStats where
  total_entries : Nat
  valid_entries : Nat
  invalid_entries : Nat
deriving DecidableEq, Repr

/-- `Cache::get_stats`: count the entries whose key can be turned back into
a path and then re-validate; `invalid = total - valid`. -/
def getStats (env : CacheFs) (index : CacheIndex) : CacheStats :=
  let total := index.entries.length
  let valid := (index.entries.filter fun kv =>
    match keyToPath kv.1 with
    | Except.ok scriptPath => (isCacheValid env scriptPath kv.2).getD false
    | Except.error _ => false).length
  { total_entries := total, valid_entries := valid, invalid_entries := total - valid }

/-! ## Introspection orchestrator (`introspection/runner.rs`) -/

/-- The collaborators of the orchestrator: the cache's filesystem view, the
trust store's canonicalizer, the configured introspection policy string, the
external analyzer process for one script (`run_introspection`) and for a
batch (`run_batch_introspection`, always `safe` mode), the wall clock, and
whether rewriting the persisted index succeeds. -/
structure RunnerEnv where
  fs : CacheFs
  canon : FsEnv
  policy : String
  runIntrospection : FilePath → IntrospectionMode → Except String IntrospectionResult
  runBatchIntrospection : List FilePath → Except String (List IntrospectionResult)
  now : Nat
  saveIndexOk : Bool

/-- The orchestrator's mutable state: the cache index, the trusted set, and
the `no_cache` flag. -/
structure RunnerState where
  cache : CacheIndex
  trustedPaths : List FilePath
  noCache : Bool

/-- `Cache::put`: fingerprint the script (content hash, dependency hash,
runtime version — content-hash and probe failures propagate as `Err`),
insert the entry, then rewrite the persisted index. A failed rewrite returns
`Err` but the in-memory insert has already happened. -/
def cachePut (env : RunnerEnv) (index : CacheIndex) (scriptPath : FilePath)
    (result : IntrospectionResult) : Except String Unit × CacheIndex :=
  let key := makeCacheKey env.fs scriptPath
  match env.fs.readFile scriptPath with
  | none => (Except.error "hash_file failed", index)
  | some bytes =>
    match env.fs.pythonVersion with
    | none => (Except.error "python version probe failed", index)
    | some version =>
      let entry : CacheEntry :=
        { file_hash := env.fs.sha256 bytes
          dependency_hash := hashDependencies env.fs scriptPath
          python_version := version
          schema_version := SCHEMA_VERSION
          timestamp := env.now
          result := result }
      let index2 : CacheIndex := { index with entries := insertEntry key entry index.entries }
      if env.saveIndexOk then (Except.ok (), index2)
      else (Except.error "save_index failed", index2)

/-- `IntrospectionRunner::introspect`: cache lookup (unless `no_cache`),
mode selection, delegation to the analyzer, then cache write
(warn-and-continue on a write failure). -/
def introspect (env : RunnerEnv) (st : RunnerState) (scriptPath : FilePath) :
    Except String IntrospectionResult × RunnerState :=
  match (if st.noCache then none else cacheGet env.fs st.cache scriptPath) with
  | some cachedResult => (Except.ok cachedResult, st)
  | none =>
    let mode := determineMode env.policy env.canon st.trustedPaths scriptPath
    match env.runIntrospection scriptPath mode with
    | Except.error e => (Except.error e, st)
    | Except.ok result =>
      if st.noCache then (Except.ok result, st)
      else
        let put := cachePut env st.cache scriptPath result
        (Except.ok result, { st with cache := put.2 })

/-- The synthetic minimal error result substituted for an individually
failing script during batch introspection. -/
def minimalErrorResult : IntrospectionResult :=
  { schema_version := SCHEMA_VERSION
    python_version := "Unknown"
    script_hash := "error"
    metadata := {} }

/-- One iteration of the per-script loop of `introspect_batch`: introspect
the script, pushing its result (or the synthetic minimal error result on an
individual failure) and threading the runner state. -/
def introspectEachStep (env : RunnerEnv) (acc : List IntrospectionResult × RunnerState)
    (scriptPath : FilePath) : List IntrospectionResult × RunnerState :=
  let step := introspect env acc.2 scriptPath
  match step.1 with
  | Except.ok result => (acc.1 ++ [result], step.2)
  | Except.error _ => (acc.1 ++ [minimalErrorResult], step.2)

/-- The per-script loop shared by the small-batch path and the fallback
path of `introspect_batch`: introspect each script in order, replacing an
individual failure with `minimalErrorResult`, threading the cache state. -/
def introspectEach (env : RunnerEnv) (st : RunnerState) (scriptPaths : List FilePath) :
    List IntrospectionResult × RunnerState :=
  scriptPaths.foldl (introspectEachStep env) ([], st)

/-- `IntrospectionRunner::introspect_batch`: at most three scripts go
through the per-script path (to reuse the cache); larger batches issue one
combined `safe`-mode delegation whose successful result list is returned
verbatim, and fall back to the per-script path when the combined call
fails. -/
def introspectBatch (env : RunnerEnv) (st : RunnerState) (scriptPaths : List FilePath) :
    Except String (List IntrospectionResult) × RunnerState :=
  if scriptPaths.length ≤ 3 then
    let each := introspectEach env st scriptPaths
    (Except.ok each.1, each.2)
  else
    match env.runBatchIntrospection scriptPaths with
    | Except.ok results => (Except.ok results, st)
    | Except.error _ =>
      let each := introspectEach env st scriptPaths
      (Except.ok each.1, each.2)

/-! ## Discovery resolver (`discovery.rs`) -/

/-- `EntryPoint` as detected by discovery (named `EntryPointKind` to avoid
clashing with the schema's `EntryPoint` struct). -/
inductive EntryPointKind where
  | Pep723
  | Framework (name : String)
  | MainFunction
  | Unknown
deriving DecidableEq, Repr

/-- `ScriptInfo` (the ScriptIdentity of the spec): name is the file stem,
`is_local` is the scope tag. -/
structure ScriptInfo where
  name : String
  path : FilePath
  is_local : Bool
  description : Option String
  entry_point : EntryPointKind
deriving DecidableEq, Repr

/-- The collaborators of the discovery resolver. `scanDir` is
`discover_scripts_in_dir` (the `walkdir` enumeration plus the extension /
private-prefix / stub filters and per-file analysis, a filesystem effect);
`globalScriptDirs` is `config.get_global_script_dirs()`;
`pathExistsStr` and `analyzeScript` serve the direct-path branch, which
works on the raw name string. -/
structure DiscoveryEnv where
  scanDir : FilePath → Bool → Except String (List ScriptInfo)
  dirExists : FilePath → Bool
  globalScriptDirs : Except String (List FilePath)
  projectScriptDir : String
  precedence : String
  pathExistsStr : String → Bool
  analyzeScript : String → Bool → Except String ScriptInfo

/-- `Discovery::discover_scripts`: local directory first (when a project
root is known and the directory exists), then every existing global
directory; scan failures propagate. -/
def discoverScripts (env : DiscoveryEnv) (projectRoot : Option FilePath) :
    Except String (List ScriptInfo) := do
  let localScripts ←
    match projectRoot with
    | some root =>
      let localDir := root ++ [env.projectScriptDir]
      if env.dirExists localDir then env.scanDir localDir true
      else pure []
    | none => pure []
  let globalDirs ← env.globalScriptDirs
  let globalScripts ← globalDirs.foldlM
    (fun acc dir =>
      if env.dirExists dir then do
        let scripts ← env.scanDir dir false
        pure (acc ++ scripts)
      else pure acc)
    []
  pure (localScripts ++ globalScripts)

/-- `str::split_once` on a character: split at the first occurrence,
returning the parts before and after it. -/
def splitOnceData (c : Char) : List Char → Option (List Char × List Char)
  | [] => none
  | x :: xs =>
    if x = c then some ([], xs)
    else (splitOnceData c xs).map fun q => (x :: q.1, q.2)

/-- `str::split_once` on strings. -/
def splitOnce (s : String) (c : Char) : Option (String × String) :=
  (splitOnceData c s.data).map fun q => (String.mk q.1, String.mk q.2)

/-- `Discovery::resolve_local_script`: scan the project script directory and
take the first name match. -/
def resolveLocalScript (env : DiscoveryEnv) (name : String) (projectRoot : Option FilePath) :
    Except String ScriptInfo :=
  match projectRoot with
  | none => Except.error "No project root found"
  | some root => do
    let scripts ← env.scanDir (root ++ [env.projectScriptDir]) true
    match scripts.find? (fun s => s.name == name) with
    | some s => pure s
    | none => Except.error ("Local script not found: " ++ name)

/-- The directory loop of `resolve_global_script`: a failing scan of one
directory is skipped, the first name match wins. -/
def resolveGlobalLoop (env : DiscoveryEnv) (name : String) :
    List FilePath → Except String ScriptInfo
  | [] => Except.error ("Global script not found: " ++ name)
  | dir :: rest =>
    match env.scanDir dir false with
    | Except.ok scripts =>
      match scripts.find? (fun s => s.name == name) with
      | some s => Except.ok s
      | none => resolveGlobalLoop env name rest
    | Except.error _ => resolveGlobalLoop env name rest

/-- `Discovery::resolve_global_script` (the `?` on
`get_global_script_dirs` propagates). -/
def resolveGlobalScript (env : DiscoveryEnv) (name : String) : Except String ScriptInfo :=
  match env.globalScriptDirs with
  | Except.error e => Except.error e
  | Except.ok dirs => resolveGlobalLoop env name dirs

/-- The precedence-based bare-name lookup of `resolve_script`: full
discovery, then local-before-global when the configured precedence is
`"local"`, otherwise global-before-local. -/
def resolveBareName (env : DiscoveryEnv) (name : String) (projectRoot : Option FilePath) :
    Except String ScriptInfo := do
  let scripts ← discoverScripts env projectRoot
  if env.precedence = "local" then
    match scripts.find? (fun s => s.is_local && s.name == name) with
    | some s => pure s
    | none =>
      match scripts.find? (fun s => !s.is_local && s.name == name) with
      | some s => pure s
      | none => Except.error ("Script not found: " ++ name)
  else
    match scripts.find? (fun s => !s.is_local && s.name == name) with
    | some s => pure s
    | none =>
      match scripts.find? (fun s => s.is_local && s.name == name) with
      | some s => pure s
      | none => Except.error ("Script not found: " ++ name)

/-- `Discovery::resolve_script`: explicit `scope:name` selector first (an
unknown scope token is an invalid-scope error), then the direct-path branch
(a name containing a separator that exists on disk is analyzed directly),
then precedence-based bare-name resolution. -/
def resolveScript (env : DiscoveryEnv) (name : String) (projectRoot : Option FilePath) :
    Except String ScriptInfo :=
  match splitOnce name ':' with
  | some (scope, scriptName) =>
    if scope = "project" then resolveLocalScript env scriptName projectRoot
    else if scope = "global" then resolveGlobalScript env scriptName
    else Except.error ("Invalid scope: " ++ scope)
  | none =>
    if name.data.contains '/' || name.data.contains '\\' then
      if env.pathExistsStr name then env.analyzeScript name false
      else resolveBareName env name projectRoot
    else resolveBareName env name projectRoot

/-! ## Concrete fixtures used to instantiate the theorems below -/

/-- A filesystem on which every canonicalization fails. -/
def unreadableFs : FsEnv := ⟨fun _ => none⟩

/-- A filesystem on which canonicalization is the identity (no symlinks,
every path exists). -/
def identityFs : FsEnv := ⟨fun p => some p⟩

/-- A boot-time filesystem view with an existing but unreadable persisted
index file. -/
def corruptIndexFs : CacheBootFs :=
  { cacheDirExists := true
    createDirOk := true
    indexFileExists := true
    readIndexFile := none
    parseIndex := fun _ => none }

/-- A cache filesystem with no readable files and a failing runtime-version
probe. -/
def bareCacheFs : CacheFs :=
  { fileExists := fun _ => false
    readFile := fun _ => none
    sha256 := fun _ => ""
    pathBytes := fun _ => []
    pythonVersion := none }

/-- An orchestrator environment whose combined batch delegation succeeds but
returns an empty result list, and whose per-script delegation fails. -/
def emptyBatchEnv : RunnerEnv :=
  { fs := bareCacheFs
    canon := ⟨fun _ => none⟩
    policy := "safe"
    runIntrospection := fun _ _ => Except.error "analyzer failed"
    runBatchIntrospection := fun _ => Except.ok []
    now := 0
    saveIndexOk := true }

/-- A fresh runner state: empty cache index, no trusted paths, caching on. -/
def runnerState0 : RunnerState :=
  { cache := { entries := [], version := SCHEMA_VERSION }
    trustedPaths := []
    noCache := false }

/-- Four script paths (a batch larger than three). -/
def fourPaths : List FilePath := [["a.py"], ["b.py"], ["c.py"], ["d.py"]]

/-- A script named `build` in the project-local scope. -/
def localScriptInfo : ScriptInfo :=
  { name := "build"
    path := ["root", ".pyst", "build.py"]
    is_local := true
    description := none
    entry_point := EntryPointKind.Unknown }

/-- A script named `build` in the global scope. -/
def globalScriptInfo : ScriptInfo :=
  { name := "build"
    path := ["gl", "build.py"]
    is_local := false
    description := none
    entry_point := EntryPointKind.Unknown }

/-- A discovery environment in which the name `build` exists in both scopes
and the configured precedence is `local`. -/
def discoveryEnvLocal : DiscoveryEnv :=
  { scanDir := fun _ isLocal =>
      if isLocal then Except.ok [localScriptInfo] else Except.ok [globalScriptInfo]
    dirExists := fun _ => true
    globalScriptDirs := Except.ok [["gl"]]
    projectScriptDir := ".pyst"
    precedence := "local"
    pathExistsStr := fun _ => false
    analyzeScript := fun _ _ => Except.error "unused" }

/-- The same discovery environment with precedence flipped to `global`. -/
def discoveryEnvGlobal : DiscoveryEnv :=
  { discoveryEnvLocal with precedence := "global" }

/-! ## Helper lemmas -/

/-- The `enabled` component of the rule loop is the negation-adjusted
outcome of the last matching rule, or the incoming value when none
matches. -/
theorem foldl_evalRuleStep_fst (scriptName : String) (rules : List String) :
    ∀ st : Bool × List ContextRule × Option ContextRule,
      (rules.foldl (evalRuleStep scriptName) st).1 =
        ((rules.reverse.find? (ruleMatches scriptName)).elim st.1
          fun p => !(stripNegation p).1) := by
  induction rules with
  | nil => intro st; simp
  | cons p rest ih =>
    intro st
    simp only [List.foldl_cons, List.reverse_cons, List.find?_append, ih]
    cases hf : rest.reverse.find? (ruleMatches scriptName) with
    | some q => simp [Option.or]
    | none =>
      cases hm : ruleMatches scriptName p with
      | true =>
        unfold ruleMatches at hm
        simp [Option.or, List.find?, hm, evalRuleStep, ruleMatches]
      | false =>
        unfold ruleMatches at hm
        simp [Option.or, List.find?, hm, evalRuleStep, ruleMatches]

/-- `evaluate_script` exposes the rule loop's `enabled` value. -/
theorem evaluateScript_enabled (ctxs : Contexts) (contextName scriptName : String) :
    (ctxs.evaluateScript contextName scriptName).enabled =
      (evaluateRules ((ctxs.contexts.lookup contextName).getD ContextConfig.default).enabled
        scriptName).1 := rfl

/-- The validity check passes exactly when the five fingerprint conditions
hold (an `Err` from hashing or probing counts as not passing, matching the
caller's `unwrap_or(false)`). -/
theorem isCacheValid_getD_true_iff (env : CacheFs) (scriptPath : FilePath)
    (entry : CacheEntry) :
    (isCacheValid env scriptPath entry).getD false = true ↔
      env.fileExists scriptPath = true ∧
      entry.schema_version = SCHEMA_VERSION ∧
      (∃ bytes, env.readFile scriptPath = some bytes ∧ entry.file_hash = env.sha256 bytes) ∧
      entry.dependency_hash = hashDependencies env scriptPath ∧
      (∃ version, env.pythonVersion = some version ∧ entry.python_version = version) := by
  unfold isCacheValid
  cases hfe : env.fileExists scriptPath with
  | false => simp [hfe]
  | true =>
    simp only [hfe]
    by_cases hsv : entry.schema_version = SCHEMA_VERSION
    · cases hr : env.readFile scriptPath with
      | none => simp [hsv, hr]
      | some bytes =>
        by_cases hfh : entry.file_hash = env.sha256 bytes
        · by_cases hdh : entry.dependency_hash = hashDependencies env scriptPath
          · cases hpv : env.pythonVersion with
            | none => simp [hsv, hr, hfh, hdh, hpv]
            | some version =>
              by_cases hv : entry.python_version = version
              · simp [hsv, hr, hfh, hdh, hpv, hv]
              · simp [hsv, hr, hfh, hdh, hpv, hv]
          · simp [hsv, hr, hfh, hdh]
        · simp [hsv, hr, hfh]
    · simp [hsv]

/-- The per-script batch loop produces exactly one result per input. -/
theorem foldl_introspectEachStep_length (env : RunnerEnv) (scriptPaths : List FilePath) :
    ∀ acc : List IntrospectionResult × RunnerState,
      (scriptPaths.foldl (introspectEachStep env) acc).1.length =
        acc.1.length + scriptPaths.length := by
  induction scriptPaths with
  | nil => intro acc; simp
  | cons p rest ih =>
    intro acc
    simp only [List.foldl_cons, List.length_cons, ih, introspectEachStep]
    cases hstep : (introspect env acc.2 p).1 <;> simp [hstep] <;> omega

/-! ## Claim theorems -/

/-- C1: mode selection is a security boundary: for every configured policy
and every path the Trust Store does not report trusted, `determine_mode`
returns `Safe` (even when the policy string is `"import"`), and `Import` is
selected exactly when the policy is `"import"` and the path is trusted. -/
theorem determineMode_untrusted_safe (policy : String) (env : FsEnv)
    (trustedPaths : List FilePath) (scriptPath : FilePath) :
    (isTrusted env trustedPaths scriptPath = false →
      determineMode policy env trustedPaths scriptPath = IntrospectionMode.Safe)
    ∧ (determineMode policy env trustedPaths scriptPath = IntrospectionMode.Import ↔
        policy = "import" ∧ isTrusted env trustedPaths scriptPath = true) := by
  unfold determineMode
  by_cases hp : policy = "import"
  · cases ht : isTrusted env trustedPaths scriptPath <;> simp [hp, ht]
  · simp [hp]

/-- Witness for C1: on a filesystem where canonicalization fails nothing is
trusted, and `determine_mode` under policy `"import"` still returns
`Safe`. -/
theorem determineMode_untrusted_safe_witness :
    isTrusted unreadableFs [] ["script.py"] = false ∧
    determineMode "import" unreadableFs [] ["script.py"] = IntrospectionMode.Safe :=
  ⟨rfl, (determineMode_untrusted_safe "import" unreadableFs [] ["script.py"]).1 rfl⟩

/-- C2: the `enabled` field of a policy evaluation equals the
negation-adjusted outcome of the last rule in declaration order whose
pattern matches the name (last-writer-wins), and in particular
`["!x","*"]` on `"x"` yields `true` while `["*","!x"]` on `"x"` yields
`false`. -/
theorem evaluateScript_last_writer_wins :
    (∀ (ctxs : Contexts) (contextName scriptName : String),
      (ctxs.evaluateScript contextName scriptName).enabled =
        ((((ctxs.contexts.lookup contextName).getD ContextConfig.default).enabled.reverse.find?
            (ruleMatches scriptName)).elim false fun p => !(stripNegation p).1))
    ∧ ((Contexts.mk [("c", ContextConfig.mk ["!x", "*"])]).evaluateScript "c" "x").enabled
        = true
    ∧ ((Contexts.mk [("c", ContextConfig.mk ["*", "!x"])]).evaluateScript "c" "x").enabled
        = false := by
  refine ⟨fun ctxs contextName scriptName => ?_, by decide, by decide⟩
  rw [evaluateScript_enabled]
  exact foldl_evalRuleStep_fst scriptName _ (false, [], none)

/-- C5 counterexample: the pattern `"***"` contains a wildcard
metacharacter and fails to compile as a glob, yet the pattern matcher
returns `true` for the name `"***"` — the claim that malformed patterns
never match any name is false. -/
theorem matchesPattern_malformed_counterexample :
    ("***".data.contains '*' = true) ∧ globNew "***" = none ∧
    matchesPattern "***" "***" = true :=
  ⟨by decide, by decide, by decide⟩

/-- C5 (amended): a pattern that contains wildcard metacharacters but fails
to compile as a glob never causes the evaluation to fail and never matches
via glob semantics; the matcher falls back to exact string equality, so such
a pattern matches exactly the one name literally equal to the pattern
text. -/
theorem matchesPattern_malformed_exact_equality (name pattern : String)
    (hmeta : (pattern.data.contains '*' || pattern.data.contains '?') = true)
    (hbad : globNew pattern = none) :
    matchesPattern name pattern = (name == pattern) := by
  unfold matchesPattern
  by_cases hstar : pattern = "*"
  · subst hstar
    exact absurd hbad (by decide)
  · simp [hstar, hmeta, hbad]

/-- Witness for C5 (amended): the malformed pattern `"a**"` does not match
the name `"a*b"`. -/
theorem matchesPattern_malformed_exact_equality_witness :
    matchesPattern "a*b" "a**" = false := by
  have h := matchesPattern_malformed_exact_equality "a*b" "a**" (by decide) (by decide)
  simpa using h

/-- C6: whenever no rule of the effective context (the looked-up context, or
the built-in default when the name is unknown — including a context with an
empty rule list) matches the script name, the evaluation's `enabled` field
is `false`. -/
theorem evaluateScript_no_match_disabled (ctxs : Contexts) (contextName scriptName : String)
    (h : ∀ p ∈ ((ctxs.contexts.lookup contextName).getD ContextConfig.default).enabled,
        ruleMatches scriptName p = false) :
    (ctxs.evaluateScript contextName scriptName).enabled = false := by
  rw [evaluateScript_enabled]
  unfold evaluateRules
  rw [foldl_evalRuleStep_fst]
  have hnone :
      (((ctxs.contexts.lookup contextName).getD ContextConfig.default).enabled.reverse.find?
        (ruleMatches scriptName)) = none := by
    rw [List.find?_eq_none]
    intro x hx
    simp [h x (List.mem_reverse.mp hx)]
  rw [hnone]
  rfl

/-- Witness for C6: a context with an empty rule list evaluates to
`enabled = false`. -/
theorem evaluateScript_no_match_disabled_witness :
    ((Contexts.mk [("ci", ContextConfig.mk [])]).evaluateScript "ci" "foo").enabled = false :=
  evaluateScript_no_match_disabled (Contexts.mk [("ci", ContextConfig.mk [])]) "ci" "foo"
    (by intro p hp; simp [List.lookup] at hp)

/-- C3: `get` returns a hit exactly when an entry is stored under the
path's key and all five validity conditions hold — the file exists, the
stored schema version equals the schema-version constant, the fresh content
hash equals the stored one, the fresh dependency hash equals the stored
one, and the freshly probed runtime version equals the stored one; any
single mismatch (or hash/probe failure) makes `get` a miss. -/
theorem cacheGet_hit_iff (env : CacheFs) (index : CacheIndex) (scriptPath : FilePath)
    (r : IntrospectionResult) :
    cacheGet env index scriptPath = some r ↔
      ∃ entry,
        index.entries.lookup (makeCacheKey env scriptPath) = some entry ∧
        entry.result = r ∧
        env.fileExists scriptPath = true ∧
        entry.schema_version = SCHEMA_VERSION ∧
        (∃ bytes, env.readFile scriptPath = some bytes ∧
          entry.file_hash = env.sha256 bytes) ∧
        entry.dependency_hash = hashDependencies env scriptPath ∧
        (∃ version, env.pythonVersion = some version ∧
          entry.python_version = version) := by
  unfold cacheGet
  cases hlook : index.entries.lookup (makeCacheKey env scriptPath) with
  | none => simp
  | some entry =>
    dsimp only
    by_cases hvalid : (isCacheValid env scriptPath entry).getD false = true
    · have hconds := (isCacheValid_getD_true_iff env scriptPath entry).mp hvalid
      simp only [hvalid, if_true, Option.some.injEq]
      constructor
      · intro hr
        exact ⟨entry, rfl, hr, hconds.1, hconds.2.1, hconds.2.2.1, hconds.2.2.2.1,
          hconds.2.2.2.2⟩
      · rintro ⟨entry2, heq, hr, -⟩
        cases heq
        exact hr
    · have hvf : (isCacheValid env scriptPath entry).getD false = false := by
        cases hb : (isCacheValid env scriptPath entry).getD false
        · rfl
        · exact absurd hb hvalid
      rw [hvf]
      constructor
      · intro hr
        simp at hr
      · rintro ⟨entry2, heq, hr, hconds⟩
        cases heq
        exact absurd ((isCacheValid_getD_true_iff env scriptPath entry).mpr
          ⟨hconds.1, hconds.2.1, hconds.2.2.1, hconds.2.2.2⟩) hvalid

/-- C4 counterexample: with an existing but unreadable persisted index
file, `Cache::new` returns an error instead of an empty cache. -/
theorem cacheNew_corrupt_counterexample :
    corruptIndexFs.indexFileExists = true ∧
    cacheNew corruptIndexFs = Except.error "load_index: read failed" :=
  ⟨rfl, rfl⟩

/-- C4 (amended): when the persisted index file exists but is unreadable or
malformed, constructing the cache fails — `load_index`'s error propagates to
the caller through `?`; only a missing index file produces an empty
cache. -/
theorem cacheNew_corrupt_is_error (env : CacheBootFs)
    (hexists : env.indexFileExists = true)
    (hbad : env.readIndexFile = none ∨
      ∃ s, env.readIndexFile = some s ∧ env.parseIndex s = none) :
    ∃ e, cacheNew env = Except.error e := by
  unfold cacheNew
  by_cases hdir : env.cacheDirExists = false ∧ env.createDirOk = false
  · exact ⟨"create_dir_all failed", by simp [hdir]⟩
  · rcases hbad with hr | ⟨s, hs, hp⟩
    · exact ⟨"load_index: read failed", by simp [hdir, hexists, hr]⟩
    · exact ⟨"load_index: deserialize failed", by simp [hdir, hexists, hs, hp]⟩

/-- Witness for C4 (amended): the concrete corrupt boot filesystem makes
`Cache::new` fail. -/
theorem cacheNew_corrupt_is_error_witness :
    ∃ e, cacheNew corruptIndexFs = Except.error e :=
  cacheNew_corrupt_is_error corruptIndexFs rfl (Or.inl rfl)

/-- C7: after a successful `trust(dir)`, `dir` itself is trusted and so is
every path whose canonical form extends `dir`'s canonical form
(canonical-prefix containment); and in general a path is trusted iff its
canonical form is in the trusted set or some member of the set is a
(prefix) ancestor of it. -/
theorem trustPath_prefix_containment (env : FsEnv) (trustedPaths : List FilePath)
    (dir : FilePath) (trusted2 : List FilePath)
    (htrust : trustPath env trustedPaths dir = some trusted2) :
    isTrusted env trusted2 dir = true
    ∧ (∀ p canonicalDir canonicalP,
        env.canonicalize dir = some canonicalDir →
        env.canonicalize p = some canonicalP →
        canonicalDir.isPrefixOf canonicalP = true →
        isTrusted env trusted2 p = true)
    ∧ (∀ (s : List FilePath) (q : FilePath),
        isTrusted env s q = true ↔
          ∃ cq, env.canonicalize q = some cq ∧
            (cq ∈ s ∨ ∃ t ∈ s, t.isPrefixOf cq = true)) := by
  unfold trustPath at htrust
  cases hc : env.canonicalize dir with
  | none => rw [hc] at htrust; exact absurd htrust (by simp)
  | some canonicalDir =>
    rw [hc] at htrust
    have h2 : trusted2 =
        (if trustedPaths.contains canonicalDir then trustedPaths
         else canonicalDir :: trustedPaths) := by
      cases htrust
      rfl
    have hmem : canonicalDir ∈ trusted2 := by
      rw [h2]
      by_cases hin : trustedPaths.contains canonicalDir = true
      · rw [if_pos hin]
        exact List.elem_iff.mp hin
      · rw [if_neg hin]
        exact List.mem_cons_self _ _
    refine ⟨?_, ?_, ?_⟩
    · unfold isTrusted
      rw [hc]
      simp only [Bool.or_eq_true, List.any_eq_true]
      exact Or.inr ⟨canonicalDir, hmem, by simp⟩
    · intro p cd cp hcd hcp hpre
      have hcdeq : cd = canonicalDir := by
        cases hcd
        rfl
      unfold isTrusted
      rw [hcp]
      simp only [Bool.or_eq_true, List.any_eq_true]
      exact Or.inr ⟨canonicalDir, hmem, by rw [← hcdeq]; exact hpre⟩
    · intro s q
      unfold isTrusted
      cases hq : env.canonicalize q with
      | none => simp
      | some cq =>
        simp [List.any_eq_true, List.elem_iff]

/-- Witness for C7: trusting a directory on a symlink-free filesystem makes
the directory and a nested descendant script trusted. -/
theorem trustPath_prefix_containment_witness :
    isTrusted identityFs [["home", "user", "proj"]] ["home", "user", "proj"] = true ∧
    isTrusted identityFs [["home", "user", "proj"]]
      ["home", "user", "proj", "sub", "tool.py"] = true := by
  have h := trustPath_prefix_containment identityFs [] ["home", "user", "proj"]
    [["home", "user", "proj"]] rfl
  exact ⟨h.1, h.2.1 ["home", "user", "proj", "sub", "tool.py"]
    ["home", "user", "proj"] ["home", "user", "proj", "sub", "tool.py"] rfl rfl (by decide)⟩

/-- C8: when a bare name (no scope selector, no path separator) exists in
both scopes, `resolve_script` returns the first local match when the
configured precedence is `"local"` and the first global match when it is
`"global"`. -/
theorem resolveScript_precedence (env : DiscoveryEnv) (projectRoot : Option FilePath)
    (name : String) (scripts : List ScriptInfo) (sl sg : ScriptInfo)
    (hsplit : splitOnce name ':' = none)
    (hsep1 : name.data.contains '/' = false)
    (hsep2 : name.data.contains '\\' = false)
    (hdisc : discoverScripts env projectRoot = Except.ok scripts)
    (hl : scripts.find? (fun s => s.is_local && s.name == name) = some sl)
    (hg : scripts.find? (fun s => !s.is_local && s.name == name) = some sg) :
    (env.precedence = "local" → resolveScript env name projectRoot = Except.ok sl)
    ∧ (env.precedence = "global" → resolveScript env name projectRoot = Except.ok sg) := by
  have hnosep1 : '/' ∉ name.data := by simpa using hsep1
  have hnosep2 : '\\' ∉ name.data := by simpa using hsep2
  have hbare : resolveScript env name projectRoot = resolveBareName env name projectRoot := by
    unfold resolveScript
    rw [hsplit]
    simp [hnosep1, hnosep2]
  constructor
  · intro hprec
    rw [hbare]
    unfold resolveBareName
    rw [hdisc]
    simp [Bind.bind, Except.bind, Pure.pure, Except.pure, hprec, hl]
  · intro hprec
    rw [hbare]
    unfold resolveBareName
    rw [hdisc]
    have hne : env.precedence ≠ "local" := by
      rw [hprec]
      decide
    simp [Bind.bind, Except.bind, Pure.pure, Except.pure, hne, hg]

/-- Witness for C8: with the name `build` present in both scopes, the
`local`-precedence environment resolves to the local script and the
`global`-precedence environment resolves to the global one. -/
theorem resolveScript_precedence_witness :
    resolveScript discoveryEnvLocal "build" (some ["root"]) = Except.ok localScriptInfo ∧
    resolveScript discoveryEnvGlobal "build" (some ["root"]) = Except.ok globalScriptInfo :=
  ⟨(resolveScript_precedence discoveryEnvLocal (some ["root"]) "build"
      [localScriptInfo, globalScriptInfo] localScriptInfo globalScriptInfo
      rfl rfl rfl rfl rfl rfl).1 rfl,
   (resolveScript_precedence discoveryEnvGlobal (some ["root"]) "build"
      [localScriptInfo, globalScriptInfo] localScriptInfo globalScriptInfo
      rfl rfl rfl rfl rfl rfl).2 rfl⟩

/-- C9 counterexample: for a batch of four paths whose combined delegation
call succeeds with an empty result list, `introspect_batch` returns
`Ok([])` — not one result per input path. -/
theorem introspectBatch_counterexample :
    fourPaths.length = 4 ∧
    (introspectBatch emptyBatchEnv runnerState0 fourPaths).1 =
      Except.ok ([] : List IntrospectionResult) :=
  ⟨rfl, rfl⟩

/-- C9 (amended): `introspect_batch` never returns an error; for batches of
at most three scripts, and for larger batches whose combined delegation
call fails, it returns exactly one result per input path (in the loop's
input order, failing scripts replaced by the synthetic minimal error
result); for a larger batch whose combined call succeeds it returns the
analyzer's result list verbatim, without enforcing one result per input. -/
theorem introspectBatch_shape (env : RunnerEnv) (st : RunnerState)
    (scriptPaths : List FilePath) :
    (∃ results, (introspectBatch env st scriptPaths).1 = Except.ok results)
    ∧ (scriptPaths.length ≤ 3 →
        ∃ results, (introspectBatch env st scriptPaths).1 = Except.ok results ∧
          results.length = scriptPaths.length)
    ∧ (3 < scriptPaths.length →
        (match env.runBatchIntrospection scriptPaths with
         | Except.ok batchResults =>
            (introspectBatch env st scriptPaths).1 = Except.ok batchResults
         | Except.error _ =>
            ∃ results, (introspectBatch env st scriptPaths).1 = Except.ok results ∧
              results.length = scriptPaths.length)) := by
  unfold introspectBatch
  by_cases hlen : scriptPaths.length ≤ 3
  · refine ⟨⟨(introspectEach env st scriptPaths).1, by simp [hlen]⟩, ?_, ?_⟩
    · intro _
      refine ⟨(introspectEach env st scriptPaths).1, by simp [hlen], ?_⟩
      unfold introspectEach
      simpa using foldl_introspectEachStep_length env scriptPaths ([], st)
    · intro hgt
      omega
  · cases hb : env.runBatchIntrospection scriptPaths with
    | ok batchResults =>
      refine ⟨⟨batchResults, by simp [hlen, hb]⟩, fun hle => absurd hle hlen, ?_⟩
      intro _
      simp [hlen, hb]
    | error e =>
      refine ⟨⟨(introspectEach env st scriptPaths).1, by simp [hlen, hb]⟩,
        fun hle => absurd hle hlen, ?_⟩
      intro _
      simp only [hb]
      refine ⟨(introspectEach env st scriptPaths).1, by simp [hlen, hb], ?_⟩
      unfold introspectEach
      simpa using foldl_introspectEachStep_length env scriptPaths ([], st)

/-- Witness for C9 (amended): a one-element batch in the concrete
environment yields `Ok` with exactly one result. -/
theorem introspectBatch_shape_witness :
    ∃ results, (introspectBatch emptyBatchEnv runnerState0 [["a.py"]]).1 =
      Except.ok results ∧ results.length = 1 :=
  (introspectBatch_shape emptyBatchEnv runnerState0 [["a.py"]]).2.1 (by decide)

/-- C10: `get_stats` always reports zero valid entries and counts every
stored entry as invalid, because the key-to-path reverse lookup
unconditionally fails. -/
theorem getStats_all_invalid (env : CacheFs) (index : CacheIndex) :
    (getStats env index).valid_entries = 0 ∧
    (getStats env index).invalid_entries = (getStats env index).total_entries := by
  unfold getStats
  have hfil : (index.entries.filter fun kv =>
      match keyToPath kv.1 with
      | Except.ok scriptPath => (isCacheValid env scriptPath kv.2).getD false
      | Except.error _ => false) = [] := by
    rw [List.filter_eq_nil_iff]
    intro kv hkv
    simp [keyToPath]
  simp [hfil]

end Pyst
